import Mathlib

/-!
Verification development for the RawEditor GPU rendering pipeline.

The definitions below are a shallow embedding of the Rust/WGSL source:

* `src/gpu/shaders.rs` — the WGSL fragment shader `fs_main` and its per-pixel
  tone/color stages, modelled over the real numbers (GPU `f32` arithmetic is
  modelled as exact real arithmetic);
* `src/gpu/pipeline.rs` — the host-side `GpuEditParams` uniform struct, the
  `update_uniforms` write, the readback row-unpadding loops and
  `calculate_histogram`;
* `src/state/edit.rs` — the `EditParams` value type;
* `src/raw/loader.rs` — white-balance coefficient extraction and normalization;
* `src/color.rs` — the camera-to-sRGB matrix computation (both the live
  identity bypass and the disabled full algorithm kept in the source).
-/

namespace RawEditor

/-- RGB color vector, the `vec3<f32>` shader type, modelled over the reals. -/
structure RGB where
  r : ℝ
  g : ℝ
  b : ℝ

/-- Componentwise application of a scalar function to a color. -/
noncomputable def RGB.map (f : ℝ → ℝ) (c : RGB) : RGB :=
  ⟨f c.r, f c.g, f c.b⟩

/-- Multiplication of a color by a scalar, `color * k` in WGSL. -/
noncomputable def RGB.scale (k : ℝ) (c : RGB) : RGB :=
  ⟨k * c.r, k * c.g, k * c.b⟩

/-- Rec. 709 luminance used twice in `fs_main`:
`dot(color, vec3<f32>(0.2126, 0.7152, 0.0722))`. -/
noncomputable def luminance709 (c : RGB) : ℝ :=
  0.2126 * c.r + 0.7152 * c.g + 0.0722 * c.b

/-- Stage 4 of `fs_main`: exposure, `color * pow(2.0, params.exposure)`. -/
noncomputable def exposureStage (exposure : ℝ) (c : RGB) : RGB :=
  RGB.scale ((2 : ℝ) ^ exposure) c

/-- Stage 5a of `fs_main`: highlights,
`color * (1.0 + (lum_for_tone * params.highlights))`. -/
noncomputable def highlightsStage (highlights : ℝ) (c : RGB) : RGB :=
  RGB.scale (1 + luminance709 c * highlights) c

/-- Stage 5b of `fs_main`: shadows,
`color * (1.0 + ((1.0 - lum_for_tone) * params.shadows))`. -/
noncomputable def shadowsStage (shadows : ℝ) (c : RGB) : RGB :=
  RGB.scale (1 + (1 - luminance709 c) * shadows) c

/-- Stage 6 of `fs_main`: contrast,
`contrast_factor = 1.0 + (params.contrast / 100.0)` and then
`(color - 0.5) * contrast_factor + 0.5`. -/
noncomputable def contrastStage (contrast : ℝ) (c : RGB) : RGB :=
  RGB.map (fun x => (x - 0.5) * (1 + contrast / 100) + 0.5) c

/-- Denominator of the Levels stage, `params.whites - params.blacks + 0.0001`. -/
noncomputable def levelsDenom (whites blacks : ℝ) : ℝ :=
  whites - blacks + 0.0001

/-- Stage 7 of `fs_main`: levels,
`(color - vec3(params.blacks)) / vec3(params.whites - params.blacks + 0.0001)`. -/
noncomputable def levelsStage (whites blacks : ℝ) (c : RGB) : RGB :=
  RGB.map (fun x => (x - blacks) / levelsDenom whites blacks) c

/-- Stage 8 of `fs_main`: saturation,
`sat_factor = 1.0 + (params.saturation / 100.0)` and then
`mix(vec3(luminance), color, sat_factor)`, where WGSL
`mix(a, b, t) = a * (1 - t) + b * t` componentwise. -/
noncomputable def saturationStage (saturation : ℝ) (c : RGB) : RGB :=
  RGB.map (fun x =>
    luminance709 c * (1 - (1 + saturation / 100)) + x * (1 + saturation / 100)) c

/-- Mirror of the Rust `EditParams` value type (src/state/edit.rs): eight `f32`
sliders plus two `i32` white-balance offsets. -/
structure EditParams where
  exposure : ℚ
  contrast : ℚ
  highlights : ℚ
  shadows : ℚ
  whites : ℚ
  blacks : ℚ
  vibrance : ℚ
  saturation : ℚ
  temperature : ℤ
  tint : ℤ
  deriving DecidableEq

/-- Mirror of `EditParams::default()`: every field zero, documented in the
source as the all-default, no-adjustment state. -/
def EditParams.default : EditParams :=
  ⟨0, 0, 0, 0, 0, 0, 0, 0, 0, 0⟩

/-- Four white-balance multipliers `[R, G, B, G2]`. -/
structure WB4 where
  r : ℚ
  g : ℚ
  b : ℚ
  g2 : ℚ
  deriving DecidableEq

/-- A three-component vector of rationals, one row of the color matrix. -/
structure Vec3Q where
  x : ℚ
  y : ℚ
  z : ℚ
  deriving DecidableEq

/-- Mirror of the Rust `GpuEditParams` uniform struct (src/gpu/pipeline.rs),
field for field, including the explicit padding scalars. -/
structure GpuEditParams where
  exposure : ℚ
  contrast : ℚ
  highlights : ℚ
  shadows : ℚ
  whites : ℚ
  blacks : ℚ
  vibrance : ℚ
  saturation : ℚ
  temperature : ℚ
  tint : ℚ
  padding1 : ℚ
  padding2 : ℚ
  wb_multipliers : WB4
  color_matrix_0 : Vec3Q
  padding3 : ℚ
  color_matrix_1 : Vec3Q
  padding4 : ℚ
  color_matrix_2 : Vec3Q
  padding5 : ℚ
  deriving DecidableEq

/-- The conversion `impl From<&EditParams> for GpuEditParams`: copies the ten
sliders (the two `i32` fields cast to `f32`), zeroes the padding, and fills the
color metadata with the neutral white balance and the identity matrix rows. -/
def gpuFromEditParams (p : EditParams) : GpuEditParams where
  exposure := p.exposure
  contrast := p.contrast
  highlights := p.highlights
  shadows := p.shadows
  whites := p.whites
  blacks := p.blacks
  vibrance := p.vibrance
  saturation := p.saturation
  temperature := (p.temperature : ℚ)
  tint := (p.tint : ℚ)
  padding1 := 0
  padding2 := 0
  wb_multipliers := ⟨1, 1, 1, 1⟩
  color_matrix_0 := ⟨1, 0, 0⟩
  padding3 := 0
  color_matrix_1 := ⟨0, 1, 0⟩
  padding4 := 0
  color_matrix_2 := ⟨0, 0, 1⟩
  padding5 := 0

/-- Stages 4 through 8 of `fs_main` (exposure, highlights, shadows, contrast,
levels, saturation), applied in source order to the post-color-matrix linear
color, with the parameter values read from the uniform block. -/
noncomputable def toneColorStages (p : GpuEditParams) (c : RGB) : RGB :=
  saturationStage (p.saturation : ℝ)
    (levelsStage (p.whites : ℝ) (p.blacks : ℝ)
      (contrastStage (p.contrast : ℝ)
        (shadowsStage (p.shadows : ℝ)
          (highlightsStage (p.highlights : ℝ)
            (exposureStage (p.exposure : ℝ) c)))))

/-- Round an offset up to the next multiple of an alignment. -/
def alignUp (off a : ℕ) : ℕ :=
  ((off + a - 1) / a) * a

/-- Sequential struct layout shared by Rust `repr(C)` and the WGSL structure
member layout rules: each field is placed at the current offset rounded up to
the field alignment. A field is a pair (alignment, size) in bytes; the result
is the list of byte offsets. -/
def fieldOffsets : ℕ → List (ℕ × ℕ) → List ℕ
  | _, [] => []
  | off, (a, s) :: rest =>
      alignUp off a :: fieldOffsets (alignUp off a + s) rest

/-- Offset just past the last field of a sequentially laid out struct. -/
def structEnd : ℕ → List (ℕ × ℕ) → ℕ
  | off, [] => off
  | off, (a, s) :: rest => structEnd (alignUp off a + s) rest

/-- Alignment of a struct: the maximum alignment of its fields. -/
def structAlign (fields : List (ℕ × ℕ)) : ℕ :=
  fields.foldl (fun m p => max m p.1) 1

/-- Total size of a struct: the end offset rounded up to the struct alignment
(the rule used both by Rust `repr(C)` and by WGSL for array stride or nested
struct purposes). -/
def structSize (fields : List (ℕ × ℕ)) : ℕ :=
  alignUp (structEnd 0 fields) (structAlign fields)

/-- The (alignment, size) table of the Rust `GpuEditParams` struct under
`#[repr(C)]`: twelve `f32` fields (align 4, size 4), one `[f32; 4]`
(align 4, size 16), then three times `[f32; 3]` (align 4, size 12) followed
by an `f32` padding scalar. -/
def rustGpuEditParamsFields : List (ℕ × ℕ) :=
  [(4, 4), (4, 4), (4, 4), (4, 4), (4, 4), (4, 4), (4, 4), (4, 4), (4, 4),
   (4, 4), (4, 4), (4, 4),
   (4, 16),
   (4, 12), (4, 4), (4, 12), (4, 4), (4, 12), (4, 4)]

/-- The (alignment, size) table of the WGSL `EditParams` uniform struct:
twelve `f32` members (align 4, size 4), one `vec4<f32>` (align 16, size 16),
then three times `vec3<f32>` (align 16, size 12) followed by an `f32` padding
member. -/
def wgslEditParamsFields : List (ℕ × ℕ) :=
  [(4, 4), (4, 4), (4, 4), (4, 4), (4, 4), (4, 4), (4, 4), (4, 4), (4, 4),
   (4, 4), (4, 4), (4, 4),
   (16, 16),
   (16, 12), (4, 4), (16, 12), (4, 4), (16, 12), (4, 4)]

/-- Normalization step of `load_raw_data_blocking` (src/raw/loader.rs):
`g_ref = wb[1].max(0.001)`, every channel divided by `g_ref`, and the fourth
channel taken from `wb[3]` when it is finite and positive, else from `wb[1]`.
Over the rationals the finiteness test of the source is always true. -/
def normalizeWb4 (wb : WB4) : WB4 :=
  let g_ref := max wb.g (1/1000)
  ⟨wb.r / g_ref, wb.g / g_ref, wb.b / g_ref,
   if 0 < wb.g2 then wb.g2 / g_ref else wb.g / g_ref⟩

/-- White-balance extraction of `load_raw_data_blocking`: with at least four
coefficients use the first four; with exactly three, duplicate the green
coefficient as the second green; otherwise fall back to neutral
`[1, 1, 1, 1]`. The result is then normalized by `normalizeWb4`. -/
def normalizeWbCoeffs (coeffs : List ℚ) : WB4 :=
  match coeffs with
  | c0 :: c1 :: c2 :: c3 :: _ => normalizeWb4 ⟨c0, c1, c2, c3⟩
  | [c0, c1, c2] => normalizeWb4 ⟨c0, c1, c2, c1⟩
  | _ => normalizeWb4 ⟨1, 1, 1, 1⟩

/-- A 3x3 matrix stored as a flat row-major `[f32; 9]`, as in src/color.rs. -/
structure Mat9 where
  m0 : ℚ
  m1 : ℚ
  m2 : ℚ
  m3 : ℚ
  m4 : ℚ
  m5 : ℚ
  m6 : ℚ
  m7 : ℚ
  m8 : ℚ
  deriving DecidableEq

/-- The identity matrix returned by the fallback branches of color.rs. -/
def identityMat9 : Mat9 :=
  ⟨1, 0, 0, 0, 1, 0, 0, 0, 1⟩

/-- The all-zero calibration matrix (absent camera metadata). -/
def zeroMat9 : Mat9 :=
  ⟨0, 0, 0, 0, 0, 0, 0, 0, 0⟩

/-- Determinant of a row-major 3x3 matrix. -/
def matDet (m : Mat9) : ℚ :=
  m.m0 * (m.m4 * m.m8 - m.m5 * m.m7)
    - m.m1 * (m.m3 * m.m8 - m.m5 * m.m6)
    + m.m2 * (m.m3 * m.m7 - m.m4 * m.m6)

/-- Matrix inversion as performed by `cgmath::Matrix3::invert`: `None` when
the determinant is zero, otherwise the adjugate divided by the determinant. -/
def matInvert (m : Mat9) : Option Mat9 :=
  if matDet m = 0 then none
  else
    let d := matDet m
    some ⟨(m.m4 * m.m8 - m.m5 * m.m7) / d,
          (m.m2 * m.m7 - m.m1 * m.m8) / d,
          (m.m1 * m.m5 - m.m2 * m.m4) / d,
          (m.m5 * m.m6 - m.m3 * m.m8) / d,
          (m.m0 * m.m8 - m.m2 * m.m6) / d,
          (m.m2 * m.m3 - m.m0 * m.m5) / d,
          (m.m3 * m.m7 - m.m4 * m.m6) / d,
          (m.m1 * m.m6 - m.m0 * m.m7) / d,
          (m.m0 * m.m4 - m.m1 * m.m3) / d⟩

/-- Row-major product of two 3x3 matrices. -/
def matMul (a b : Mat9) : Mat9 :=
  ⟨a.m0 * b.m0 + a.m1 * b.m3 + a.m2 * b.m6,
   a.m0 * b.m1 + a.m1 * b.m4 + a.m2 * b.m7,
   a.m0 * b.m2 + a.m1 * b.m5 + a.m2 * b.m8,
   a.m3 * b.m0 + a.m4 * b.m3 + a.m5 * b.m6,
   a.m3 * b.m1 + a.m4 * b.m4 + a.m5 * b.m7,
   a.m3 * b.m2 + a.m4 * b.m5 + a.m5 * b.m8,
   a.m6 * b.m0 + a.m7 * b.m3 + a.m8 * b.m6,
   a.m6 * b.m1 + a.m7 * b.m4 + a.m8 * b.m7,
   a.m6 * b.m2 + a.m7 * b.m5 + a.m8 * b.m8⟩

/-- Multiplication of every matrix entry by a scalar. -/
def matScale (k : ℚ) (m : Mat9) : Mat9 :=
  ⟨k * m.m0, k * m.m1, k * m.m2, k * m.m3, k * m.m4,
   k * m.m5, k * m.m6, k * m.m7, k * m.m8⟩

/-- The `is_identity_matrix` check of color.rs: every diagonal entry within
0.001 of 1 and every off-diagonal entry within 0.001 of 0. -/
def isIdentityMat (m : Mat9) : Prop :=
  |m.m0 - 1| < 1/1000 ∧ |m.m1| < 1/1000 ∧ |m.m2| < 1/1000 ∧
  |m.m3| < 1/1000 ∧ |m.m4 - 1| < 1/1000 ∧ |m.m5| < 1/1000 ∧
  |m.m6| < 1/1000 ∧ |m.m7| < 1/1000 ∧ |m.m8 - 1| < 1/1000

instance (m : Mat9) : Decidable (isIdentityMat m) := by
  unfold isIdentityMat
  infer_instance

/-- Some entry of the matrix exceeds 10 in absolute value; used both for the
scaling heuristic (`needs_normalization`) and the extreme-value rejection of
color.rs (over the rationals every value is finite). -/
def matAnyAbsGtTen (m : Mat9) : Prop :=
  10 < |m.m0| ∨ 10 < |m.m1| ∨ 10 < |m.m2| ∨ 10 < |m.m3| ∨ 10 < |m.m4| ∨
  10 < |m.m5| ∨ 10 < |m.m6| ∨ 10 < |m.m7| ∨ 10 < |m.m8|

instance (m : Mat9) : Decidable (matAnyAbsGtTen m) := by
  unfold matAnyAbsGtTen
  infer_instance

/-- The standard XYZ-to-sRGB matrix constant of color.rs. -/
def xyzToSrgbMat : Mat9 :=
  ⟨3.2406, -1.5372, -0.4986,
   -0.9689, 1.8758, 0.0415,
   0.0557, -0.2040, 1.0570⟩

/-- The live body of `calculate_cam_to_srgb_matrix` (src/color.rs): the full
computation is bypassed and the identity matrix is returned unconditionally,
for every input and without any possibility of a panic or an error. -/
def calculate_cam_to_srgb_matrix (_xyzToCam : Mat9) : Mat9 :=
  identityMat9

/-- The complete, currently disabled algorithm kept in src/color.rs below the
early return: identity fast path, optional division by 10000 when entries
exceed 10 in absolute value, inversion (falling back to identity when the
matrix is singular), multiplication by the XYZ-to-sRGB constant, diagonal
rescaling, and an extreme-value rejection returning identity. -/
def camToSrgbFull (xyzToCam : Mat9) : Mat9 :=
  if isIdentityMat xyzToCam then xyzToCam
  else
    let nrm := if matAnyAbsGtTen xyzToCam then matScale (1/10000) xyzToCam
               else xyzToCam
    match matInvert nrm with
    | none => identityMat9
    | some camToXyz =>
        let result := matMul xyzToSrgbMat camToXyz
        let diagAvg := (|result.m0| + |result.m4| + |result.m8|) / 3
        let scaleFactor := if 2 < diagAvg then (3/2) / diagAvg else 1
        let scaled := matScale scaleFactor result
        if matAnyAbsGtTen scaled then identityMat9 else scaled

/-- GPU-resident resources addressed by handle: texture contents (texel
words) and buffer contents (the `f32` words of each buffer). -/
structure GpuStore where
  textures : ℕ → List ℕ
  buffers : ℕ → List ℚ

/-- `Queue::write_buffer` at offset 0: replaces the contents of one buffer,
leaving all textures and the other buffers untouched. -/
def writeBuffer (s : GpuStore) (id : ℕ) (contents : List ℚ) : GpuStore :=
  { s with buffers := Function.update s.buffers id contents }

/-- `Queue::write_texture`: replaces the contents of one texture. -/
def writeTexture (s : GpuStore) (id : ℕ) (contents : List ℕ) : GpuStore :=
  { s with textures := Function.update s.textures id contents }

/-- Host-side fields of `RenderPipeline` (src/gpu/pipeline.rs) relevant here:
the GPU resource handles, the bind-group record (which resources it binds),
pipeline state handle, the dimensions and image id, and the color metadata
captured at construction. -/
structure Pipeline where
  textureId : ℕ
  uniformBufferId : ℕ
  bindGroup : ℕ × ℕ
  pipelineState : ℕ
  width : ℕ
  height : ℕ
  preview_width : ℕ
  preview_height : ℕ
  image_id : ℤ
  wb_multipliers : WB4
  color_matrix : Mat9

/-- The metadata splice performed both in `RenderPipeline::new` and in
`update_uniforms`: overwrite the white-balance field and the three
color-matrix rows of the converted parameters with the stored camera
metadata (the flat `[f32; 9]` split into rows). -/
def setColorMetadata (g : GpuEditParams) (wb : WB4) (cm : Mat9) : GpuEditParams :=
  { g with
    wb_multipliers := wb
    color_matrix_0 := ⟨cm.m0, cm.m1, cm.m2⟩
    color_matrix_1 := ⟨cm.m3, cm.m4, cm.m5⟩
    color_matrix_2 := ⟨cm.m6, cm.m7, cm.m8⟩ }

/-- The 28 `f32` words of the uniform block in declaration order, as uploaded
by `bytemuck::cast_slice(&[gpu_params])` (112 bytes, matching the layout
tables above). -/
def encodeGpuParams (g : GpuEditParams) : List ℚ :=
  [g.exposure, g.contrast, g.highlights, g.shadows, g.whites, g.blacks,
   g.vibrance, g.saturation, g.temperature, g.tint, g.padding1, g.padding2,
   g.wb_multipliers.r, g.wb_multipliers.g, g.wb_multipliers.b, g.wb_multipliers.g2,
   g.color_matrix_0.x, g.color_matrix_0.y, g.color_matrix_0.z, g.padding3,
   g.color_matrix_1.x, g.color_matrix_1.y, g.color_matrix_1.z, g.padding4,
   g.color_matrix_2.x, g.color_matrix_2.y, g.color_matrix_2.z, g.padding5]

/-- The words of the uniform block from the white balance on: the slice of
the encoding that holds the color metadata. -/
def colorMetadataWords (wb : WB4) (cm : Mat9) : List ℚ :=
  [wb.r, wb.g, wb.b, wb.g2,
   cm.m0, cm.m1, cm.m2, 0, cm.m3, cm.m4, cm.m5, 0, cm.m6, cm.m7, cm.m8, 0]

/-- `RenderPipeline::update_uniforms(&self, params)`: convert the parameters,
splice in the stored color metadata, and write the result into the uniform
buffer. The receiver is immutable (`&self`), so the pipeline value itself is
returned unchanged, and the only store mutation is the one buffer write. -/
def update_uniforms (pl : Pipeline) (s : GpuStore) (p : EditParams) :
    Pipeline × GpuStore :=
  (pl, writeBuffer s pl.uniformBufferId
        (encodeGpuParams
          (setColorMetadata (gpuFromEditParams p) pl.wb_multipliers pl.color_matrix)))

/-- A sequence of `update_parameters` calls applied in order. -/
def applyUpdates (pl : Pipeline) (s : GpuStore) (ps : List EditParams) : GpuStore :=
  ps.foldl (fun st p => (update_uniforms pl st p).2) s

/-- The uniform-buffer initialization of `RenderPipeline::new` (lines
202 to 215): the initial parameters converted and merged with the camera
metadata, written to the fresh uniform buffer; the mosaic is uploaded to the
input texture by the same constructor. -/
def constructStore (s : GpuStore) (pl : Pipeline) (raw : List ℕ)
    (params : EditParams) : GpuStore :=
  writeBuffer (writeTexture s pl.textureId raw) pl.uniformBufferId
    (encodeGpuParams
      (setColorMetadata (gpuFromEditParams params) pl.wb_multipliers pl.color_matrix))

/-- Concrete pipeline fixture used by witnesses. -/
def plFix : Pipeline :=
  ⟨0, 0, (0, 0), 0, 4, 4, 4, 4, 7, ⟨2, 1, 3, 1⟩, identityMat9⟩

/-- Concrete empty store fixture used by witnesses. -/
def sFix : GpuStore :=
  ⟨fun _ => [], fun _ => []⟩

/-- The GPU row-pitch padding of the readback path (src/gpu/pipeline.rs):
`bytes_per_row = width * 4` and `padded_bytes_per_row = (bytes_per_row + 255)
& !255`, computed in `u32` arithmetic, where `!255 = 0xFFFFFF00`. -/
def paddedBytesPerRow (width : ℕ) : ℕ :=
  ((width * 4 + 255) % 2^32) &&& 0xFFFFFF00

/-- The unpacking loop of `render_full_res_to_bytes`: for each output row,
append the first `width * 4` bytes of the corresponding padded row of the
mapped readback buffer. -/
def renderFullUnpack (data : List ℕ) (width height : ℕ) : List ℕ :=
  (List.range height).flatMap
    (fun y => (data.drop (y * paddedBytesPerRow width)).take (width * 4))

/-- `RenderPipeline::calculate_histogram` (src/gpu/pipeline.rs): one linear
pass over the RGBA bytes in chunks of four, incrementing the bin of the red,
green and blue byte in the respective 256-bin histogram and ignoring the
alpha byte; a trailing partial chunk is dropped (`chunks_exact(4)`).
Histograms are modelled as bin-count functions. -/
def calculate_histogram : List ℕ → (ℕ → ℕ) × (ℕ → ℕ) × (ℕ → ℕ)
  | r :: g :: b :: _a :: rest =>
      (Function.update (calculate_histogram rest).1 r
        ((calculate_histogram rest).1 r + 1),
       Function.update (calculate_histogram rest).2.1 g
        ((calculate_histogram rest).2.1 g + 1),
       Function.update (calculate_histogram rest).2.2 b
        ((calculate_histogram rest).2.2 b + 1))
  | _ => (fun _ => 0, fun _ => 0, fun _ => 0)

/-- C1: the identity law fails on the code. At all-default parameters the
tone/color stages (exposure, highlights/shadows, contrast, levels, saturation)
scale every post-color-matrix linear color by 10000 instead of leaving it
unchanged: the Levels stage divides by `whites - blacks + 0.0001 = 0.0001`.
In particular the color (1/4, 1/2, 3/4) is mapped to (2500, 5000, 7500). -/
theorem default_params_tone_stages_scale_10000 :
    (∀ c : RGB,
      toneColorStages (gpuFromEditParams EditParams.default) c = RGB.scale 10000 c) ∧
    toneColorStages (gpuFromEditParams EditParams.default) ⟨1/4, 1/2, 3/4⟩ =
      ⟨2500, 5000, 7500⟩ := by
  have h : ∀ c : RGB,
      toneColorStages (gpuFromEditParams EditParams.default) c = RGB.scale 10000 c := by
    intro c
    simp only [toneColorStages, gpuFromEditParams, EditParams.default, exposureStage,
      highlightsStage, shadowsStage, contrastStage, levelsStage, levelsDenom,
      saturationStage, luminance709, RGB.scale, RGB.map]
    norm_num [Real.rpow_zero]
    constructor
    · ring
    constructor
    · ring
    · ring
  refine ⟨h, ?_⟩
  rw [h ⟨1/4, 1/2, 3/4⟩]
  simp only [RGB.scale]
  norm_num

/-- C2 as stated is false: whites = 0 and blacks = 0.0001 both lie in the
bounded range [-100, 100], yet the Levels denominator
`whites - blacks + 0.0001` is exactly zero there, so it is not bounded away
from zero over the full parameter range. -/
theorem levels_denominator_zero_in_range :
    levelsDenom 0 (1/10000) = 0 ∧
    (0 : ℝ) ∈ Set.Icc (-100 : ℝ) 100 ∧
    ((1 : ℝ)/10000) ∈ Set.Icc (-100 : ℝ) 100 := by
  refine ⟨?_, ?_, ?_⟩
  · simp only [levelsDenom]
    norm_num
  · constructor <;> norm_num
  · constructor <;> norm_num

/-- C2 amended: the code adds the constant 0.0001 to the denominator rather
than clamping it, so the denominator is bounded below by 0.0001 exactly when
whites is at least blacks; in that regime the division cannot blow up. -/
theorem levels_denominator_bounded_when_whites_ge_blacks
    (whites blacks : ℝ) (h : blacks ≤ whites) :
    1/10000 ≤ levelsDenom whites blacks := by
  simp only [levelsDenom]
  nlinarith

/-- Witness for the amended C2 theorem at whites = blacks = 0. -/
theorem levels_denominator_bounded_witness :
    1/10000 ≤ levelsDenom 0 0 :=
  levels_denominator_bounded_when_whites_ge_blacks 0 0 le_rfl

/-- C5 as stated is false at contrast = 100 on the unit color: the shader
computes `(1 - 0.5) * (1 + 100/100) + 0.5 = 1.5`, while the claimed formula
`(color - 0.5) * (1 + contrast) + 0.5` with the raw delivered field value 100
gives 51. -/
theorem contrast_claim_false_at_100 :
    (contrastStage 100 ⟨1, 1, 1⟩).r ≠ ((1 : ℝ) - 0.5) * (1 + 100) + 0.5 := by
  simp only [contrastStage, RGB.map]
  norm_num

/-- C5 amended: the contrast stage computes
`(color - 0.5) * (1 + contrast / 100) + 0.5` componentwise, where contrast is
the raw `EditParams` field delivered to the shader. -/
theorem contrast_stage_formula (contrast : ℝ) (c : RGB) :
    contrastStage contrast c =
      ⟨(c.r - 0.5) * (1 + contrast / 100) + 0.5,
       (c.g - 0.5) * (1 + contrast / 100) + 0.5,
       (c.b - 0.5) * (1 + contrast / 100) + 0.5⟩ := rfl

/-- C3: the Rust `GpuEditParams` struct and the WGSL `EditParams` uniform
struct have byte-identical layouts. Every field sits at the same byte offset
in both declarations, the vector fields (the `vec4` white balance at field
index 12 and the three `vec3` matrix rows at field indices 13, 15, 17) fall on
16-byte boundaries, and both structs are 112 bytes in total. -/
theorem gpu_uniform_layout_matches_wgsl :
    fieldOffsets 0 rustGpuEditParamsFields = fieldOffsets 0 wgslEditParamsFields ∧
    fieldOffsets 0 wgslEditParamsFields =
      [0, 4, 8, 12, 16, 20, 24, 28, 32, 36, 40, 44, 48, 64, 76, 80, 92, 96, 108] ∧
    (fieldOffsets 0 wgslEditParamsFields).getD 12 1 % 16 = 0 ∧
    (fieldOffsets 0 wgslEditParamsFields).getD 13 1 % 16 = 0 ∧
    (fieldOffsets 0 wgslEditParamsFields).getD 15 1 % 16 = 0 ∧
    (fieldOffsets 0 wgslEditParamsFields).getD 17 1 % 16 = 0 ∧
    structSize rustGpuEditParamsFields = structSize wgslEditParamsFields ∧
    structSize rustGpuEditParamsFields = 112 := by
  decide

/-- C4 as stated is false: the positive 3-channel input (1, 1/2000, 1) has
normalized green 1/2, not 1, because the code divides by
`max(green, 0.001) = 0.001` rather than by the green coefficient itself. -/
theorem wb_green_not_one_for_small_green :
    (normalizeWbCoeffs [1, 1/2000, 1]).g = 1/2 ∧
    (0 : ℚ) < 1 ∧ (0 : ℚ) < 1/2000 ∧ ((1 : ℚ)/2, (1 : ℚ)) ∈ {p : ℚ × ℚ | p.1 ≠ p.2} := by
  refine ⟨?_, by norm_num, by norm_num, by norm_num⟩
  simp only [normalizeWbCoeffs, normalizeWb4]
  norm_num

/-- C4 amended: for a 3-channel white-balance input (r, g, b) with
g at least the guard constant 0.001, the output is (r/g, 1, b/g, 1): green is
exactly 1, every channel is divided by the green coefficient, and the
synthesized fourth channel equals the normalized green. When fewer than three
coefficients are supplied the result is neutral (1, 1, 1, 1). For
0 < g < 0.001 the code instead divides by 0.001 and green lands below 1. -/
theorem wb_normalization_amended (r g b : ℚ) (hg : 1/1000 ≤ g) :
    normalizeWbCoeffs [r, g, b] = ⟨r / g, 1, b / g, 1⟩ ∧
    (normalizeWbCoeffs [r, g, b]).g2 = (normalizeWbCoeffs [r, g, b]).g ∧
    (∀ cs : List ℚ, cs.length < 3 → normalizeWbCoeffs cs = ⟨1, 1, 1, 1⟩) := by
  have hg0 : 0 < g := lt_of_lt_of_le (by norm_num) hg
  have hmax : max g (1/1000) = g := max_eq_left hg
  have h1 : normalizeWbCoeffs [r, g, b] = ⟨r / g, 1, b / g, 1⟩ := by
    simp only [normalizeWbCoeffs, normalizeWb4, hmax, if_pos hg0]
    rw [div_self (ne_of_gt hg0)]
  refine ⟨h1, by rw [h1], ?_⟩
  intro cs hcs
  match cs with
  | [] => norm_num [normalizeWbCoeffs, normalizeWb4]
  | [c0] => norm_num [normalizeWbCoeffs, normalizeWb4]
  | [c0, c1] => norm_num [normalizeWbCoeffs, normalizeWb4]
  | c0 :: c1 :: c2 :: rest => simp at hcs; omega

/-- Witness for the amended C4 theorem at the input (6, 2, 3) and the empty
coefficient list. -/
theorem wb_normalization_amended_witness :
    normalizeWbCoeffs [6, 2, 3] = ⟨3, 1, 3/2, 1⟩ ∧
    normalizeWbCoeffs [] = ⟨1, 1, 1, 1⟩ := by
  have h := wb_normalization_amended 6 2 3 (by norm_num)
  refine ⟨?_, h.2.2 [] (by simp)⟩
  rw [h.1]
  norm_num

/-- C9: an all-zero calibration matrix yields the identity transform and never
surfaces an error. This holds for the live bypass (which returns identity for
every input) and also for the complete disabled algorithm kept in the source,
where the zero matrix fails the identity fast path, has determinant zero, and
is therefore recovered as the identity by the inversion fallback. -/
theorem zero_calibration_matrix_identity :
    calculate_cam_to_srgb_matrix zeroMat9 = identityMat9 ∧
    camToSrgbFull zeroMat9 = identityMat9 := by
  constructor
  · rfl
  · have hid : ¬ isIdentityMat zeroMat9 := by
      simp only [isIdentityMat, zeroMat9]
      norm_num
    have hnn : ¬ matAnyAbsGtTen zeroMat9 := by
      simp only [matAnyAbsGtTen, zeroMat9]
      norm_num
    have hdet : matDet zeroMat9 = 0 := by
      simp only [matDet, zeroMat9]
      norm_num
    simp only [camToSrgbFull, if_neg hid, if_neg hnn, matInvert, if_pos hdet]

/-- Helper: dropping the twelve scalar slider words of the encoded uniform
block leaves exactly the spliced color metadata words, for parameters that
came through the `From` conversion (whose padding words are zero). -/
theorem encode_setColorMetadata_drop_twelve (p : EditParams) (wb : WB4) (cm : Mat9) :
    (encodeGpuParams (setColorMetadata (gpuFromEditParams p) wb cm)).drop 12 =
      colorMetadataWords wb cm := rfl

/-- Helper: the metadata slice of the uniform buffer is preserved by any
sequence of `update_uniforms` calls, because every write re-splices the
metadata stored in the pipeline. -/
theorem applyUpdates_preserves_metadata (pl : Pipeline) (ps : List EditParams) :
    ∀ s : GpuStore,
      (s.buffers pl.uniformBufferId).drop 12 =
        colorMetadataWords pl.wb_multipliers pl.color_matrix →
      ((applyUpdates pl s ps).buffers pl.uniformBufferId).drop 12 =
        colorMetadataWords pl.wb_multipliers pl.color_matrix := by
  induction ps with
  | nil => intro s h; exact h
  | cons p ps ih =>
      intro s h
      show ((applyUpdates pl (update_uniforms pl s p).2 ps).buffers
        pl.uniformBufferId).drop 12 = _
      apply ih
      simp only [update_uniforms, writeBuffer, Function.update_same]
      exact encode_setColorMetadata_drop_twelve p pl.wb_multipliers pl.color_matrix

/-- C6: after construction, a call to `update_parameters` writes only the
fixed-size uniform buffer. The pipeline value (handles, bind group, pipeline
state, dimensions, image id, color metadata) is returned unchanged, no
texture is touched, every other buffer is unchanged, and the uniform buffer
receives the 28-word (112-byte) encoding of the new parameters merged with
the stored metadata — the same fixed size for every parameter value. -/
theorem update_uniforms_writes_only_uniform
    (pl : Pipeline) (s : GpuStore) (p : EditParams) :
    (update_uniforms pl s p).1 = pl ∧
    (update_uniforms pl s p).2.textures = s.textures ∧
    (∀ b : ℕ, b ≠ pl.uniformBufferId →
      (update_uniforms pl s p).2.buffers b = s.buffers b) ∧
    (update_uniforms pl s p).2.buffers pl.uniformBufferId =
      encodeGpuParams
        (setColorMetadata (gpuFromEditParams p) pl.wb_multipliers pl.color_matrix) ∧
    ((update_uniforms pl s p).2.buffers pl.uniformBufferId).length = 28 := by
  refine ⟨rfl, rfl, ?_, ?_, ?_⟩
  · intro b hb
    simp only [update_uniforms, writeBuffer]
    exact Function.update_noteq hb _ _
  · simp only [update_uniforms, writeBuffer, Function.update_same]
  · simp only [update_uniforms, writeBuffer, Function.update_same, encodeGpuParams]
    rfl

/-- Witness for C6 at a concrete pipeline, store and parameter snapshot. -/
theorem update_uniforms_writes_only_uniform_witness :
    (update_uniforms plFix sFix EditParams.default).1 = plFix ∧
    (update_uniforms plFix sFix EditParams.default).2.textures = sFix.textures ∧
    (update_uniforms plFix sFix EditParams.default).2.buffers 1 = sFix.buffers 1 :=
  have h := update_uniforms_writes_only_uniform plFix sFix EditParams.default
  ⟨h.1, h.2.1, h.2.2.1 1 (by decide)⟩

/-- C10: for every sequence of `update_parameters` calls after construction,
the white-balance multipliers and color-matrix rows stored in the uniform
block equal the values captured at construction. The parameter conversion
itself produces the neutral white balance and identity rows, and every
uniform write overwrites them with the construction-time metadata, so slider
updates can never change the color metadata of the pipeline. -/
theorem uniform_color_metadata_construction_constant
    (pl : Pipeline) (s : GpuStore) (raw : List ℕ) (p0 : EditParams)
    (ps : List EditParams) :
    ((applyUpdates pl (constructStore s pl raw p0) ps).buffers
        pl.uniformBufferId).drop 12 =
      colorMetadataWords pl.wb_multipliers pl.color_matrix ∧
    (∀ q : EditParams,
      (gpuFromEditParams q).wb_multipliers = ⟨1, 1, 1, 1⟩ ∧
      (gpuFromEditParams q).color_matrix_0 = ⟨1, 0, 0⟩ ∧
      (gpuFromEditParams q).color_matrix_1 = ⟨0, 1, 0⟩ ∧
      (gpuFromEditParams q).color_matrix_2 = ⟨0, 0, 1⟩) := by
  constructor
  · apply applyUpdates_preserves_metadata
    simp only [constructStore, writeBuffer, writeTexture, Function.update_same]
    exact encode_setColorMetadata_drop_twelve p0 pl.wb_multipliers pl.color_matrix
  · intro q
    exact ⟨rfl, rfl, rfl, rfl⟩

/-- Helper: masking with `0xFFFFFF00` clears the low eight bits of any value
below `2^32`, leaving the value rounded down to a multiple of 256. -/
theorem land_mask_high (x : ℕ) (hx : x < 2^32) :
    x &&& 0xFFFFFF00 = 256 * (x / 256) := by
  have hmask : (0xFFFFFF00 : ℕ) = (2^24 - 1) <<< 8 := by
    rw [Nat.shiftLeft_eq]
    norm_num
  have hrhs : 256 * (x / 256) = (x >>> 8) <<< 8 := by
    rw [Nat.shiftRight_eq_div_pow, Nat.shiftLeft_eq]
    norm_num [Nat.mul_comm]
  rw [hmask, hrhs]
  apply Nat.eq_of_testBit_eq
  intro i
  simp only [Nat.testBit_and, Nat.testBit_shiftLeft, Nat.testBit_shiftRight,
    Nat.testBit_two_pow_sub_one]
  by_cases h8 : 8 ≤ i
  · have h0 : 8 + (i - 8) = i := by omega
    by_cases h32 : i < 32
    · have h24 : i - 8 < 24 := by omega
      simp [h8, h0, h24]
    · have hx32 : x.testBit i = false :=
        Nat.testBit_lt_two_pow
          (lt_of_lt_of_le hx (Nat.pow_le_pow_right (by norm_num) (by omega)))
      have h24 : ¬ (i - 8 < 24) := by omega
      simp [h8, h0, h24, hx32]
  · simp [h8]

/-- Helper: below the `u32` overflow threshold, the padding formula equals
the row byte count rounded up to a multiple of 256. -/
theorem paddedBytesPerRow_eq (width : ℕ) (hw : width * 4 + 255 < 2^32) :
    paddedBytesPerRow width = 256 * ((width * 4 + 255) / 256) := by
  unfold paddedBytesPerRow
  rw [Nat.mod_eq_of_lt hw]
  exact land_mask_high _ hw

/-- Helper: the padded row pitch is at least the packed row byte count. -/
theorem le_paddedBytesPerRow (width : ℕ) (hw : width * 4 + 255 < 2^32) :
    width * 4 ≤ paddedBytesPerRow width := by
  rw [paddedBytesPerRow_eq width hw]
  have hdm := Nat.div_add_mod (width * 4 + 255) 256
  have hlt := Nat.mod_lt (width * 4 + 255) (show 0 < 256 by norm_num)
  omega

/-- Helper: length of a concatenation of equally sized rows. -/
theorem bind_range_length (f : ℕ → List ℕ) (L : ℕ) :
    ∀ h : ℕ, (∀ y, y < h → (f y).length = L) →
      ((List.range h).flatMap f).length = h * L := by
  intro h
  induction h with
  | zero => intro _; simp
  | succ n ih =>
      intro hf
      rw [List.range_succ]
      rw [List.flatMap_append, List.length_append]
      rw [ih (fun y hy => hf y (by omega))]
      simp only [List.flatMap_cons, List.flatMap_nil, List.append_nil]
      rw [hf n (by omega)]
      ring

/-- Helper: extracting row y from a concatenation of equally sized rows
returns that row. -/
theorem bind_range_row (f : ℕ → List ℕ) (L : ℕ) :
    ∀ h : ℕ, (∀ y, y < h → (f y).length = L) →
      ∀ y, y < h → ((((List.range h).flatMap f).drop (y * L)).take L) = f y := by
  intro h
  induction h with
  | zero => intro _ y hy; omega
  | succ n ih =>
      intro hf y hy
      rw [List.range_succ, List.flatMap_append]
      simp only [List.flatMap_cons, List.flatMap_nil, List.append_nil]
      have hlen : ((List.range n).flatMap f).length = n * L :=
        bind_range_length f L n (fun z hz => hf z (by omega))
      by_cases hyn : y < n
      · have hdrop : y * L ≤ ((List.range n).flatMap f).length := by
          rw [hlen]
          exact Nat.mul_le_mul_right L (by omega)
        rw [List.drop_append_of_le_length hdrop]
        have htake : L ≤ (((List.range n).flatMap f).drop (y * L)).length := by
          rw [List.length_drop, hlen]
          have h4 : (y + 1) * L ≤ n * L := Nat.mul_le_mul_right L (by omega)
          have h5 : (y + 1) * L = y * L + L := by ring
          omega
        rw [List.take_append_of_le_length htake]
        exact ih (fun z hz => hf z (by omega)) y hyn
      · have hyeq : y = n := by omega
        subst hyeq
        rw [← hlen, List.drop_left]
        have := hf y (by omega)
        rw [← this, List.take_length]

/-- C7: `render_full_res_to_bytes` strips the 256-byte row-pitch padding.
For every frame dimensions (with the row byte count below the `u32` overflow
threshold) and a mapped readback buffer of exactly `padded_bytes_per_row *
height` bytes, the returned buffer has exactly `width * height * 4` bytes and
its row y is exactly the first `width * 4` bytes of padded row y. -/
theorem render_full_tightly_packed (data : List ℕ) (width height : ℕ)
    (hlen : data.length = paddedBytesPerRow width * height)
    (hw : width * 4 + 255 < 2^32) :
    (renderFullUnpack data width height).length = width * height * 4 ∧
    ∀ y, y < height →
      (((renderFullUnpack data width height).drop (y * (width * 4))).take (width * 4)) =
        ((data.drop (y * paddedBytesPerRow width)).take (width * 4)) := by
  have hrow : ∀ y, y < height →
      ((data.drop (y * paddedBytesPerRow width)).take (width * 4)).length = width * 4 := by
    intro y hy
    rw [List.length_take, List.length_drop, hlen]
    have h1 : width * 4 ≤ paddedBytesPerRow width := le_paddedBytesPerRow width hw
    have h2 : (y + 1) * paddedBytesPerRow width ≤ paddedBytesPerRow width * height := by
      rw [Nat.mul_comm (paddedBytesPerRow width) height]
      exact Nat.mul_le_mul_right _ (by omega)
    have h3 : (y + 1) * paddedBytesPerRow width
        = y * paddedBytesPerRow width + paddedBytesPerRow width := by ring
    omega
  constructor
  · rw [renderFullUnpack, bind_range_length _ (width * 4) height hrow]
    ring
  · intro y hy
    exact bind_range_row _ (width * 4) height hrow y hy

/-- Witness for C7 on a concrete 1x2 frame: the padded pitch is 256 bytes,
the mapped buffer 512 bytes, and the output is tightly packed. -/
theorem render_full_tightly_packed_witness :
    (renderFullUnpack (List.replicate 512 0) 1 2).length = 1 * 2 * 4 ∧
    (((renderFullUnpack (List.replicate 512 0) 1 2).drop (1 * (1 * 4))).take (1 * 4)) =
      (((List.replicate 512 (0 : ℕ)).drop (1 * paddedBytesPerRow 1)).take (1 * 4)) :=
  have h := render_full_tightly_packed (List.replicate 512 0) 1 2
    (by simp only [List.length_replicate]; decide) (by norm_num)
  ⟨h.1, h.2 1 (by norm_num)⟩

/-- Helper: incrementing one in-range bin raises the total bin count by one. -/
theorem sum_update_incr (f : ℕ → ℕ) (x : ℕ) (hx : x < 256) :
    (∑ v ∈ Finset.range 256, Function.update f x (f x + 1) v) =
      (∑ v ∈ Finset.range 256, f v) + 1 := by
  have hmem : x ∈ Finset.range 256 := Finset.mem_range.mpr hx
  rw [Finset.sum_update_of_mem hmem, ← Finset.erase_eq,
    ← Finset.add_sum_erase _ f hmem]
  ring

/-- Helper: over a buffer of exactly n four-byte chunks of bytes, each of the
three channel histograms has total bin count n. -/
theorem histogram_chunks_sum :
    ∀ (n : ℕ) (buf : List ℕ), buf.length = 4 * n → (∀ x ∈ buf, x < 256) →
      (∑ v ∈ Finset.range 256, (calculate_histogram buf).1 v) = n ∧
      (∑ v ∈ Finset.range 256, (calculate_histogram buf).2.1 v) = n ∧
      (∑ v ∈ Finset.range 256, (calculate_histogram buf).2.2 v) = n := by
  intro n
  induction n with
  | zero =>
      intro buf hlen _
      have hnil : buf = [] := List.length_eq_zero.mp (by omega)
      subst hnil
      simp [calculate_histogram]
  | succ m ih =>
      intro buf hlen hb
      rcases buf with _ | ⟨r, buf⟩
      · simp at hlen
      rcases buf with _ | ⟨g, buf⟩
      · simp at hlen; omega
      rcases buf with _ | ⟨b, buf⟩
      · simp at hlen; omega
      rcases buf with _ | ⟨a, rest⟩
      · simp at hlen; omega
      have hrest : rest.length = 4 * m := by
        simp only [List.length_cons] at hlen
        omega
      have hbr : ∀ x ∈ rest, x < 256 := fun x hx => hb x (by simp [hx])
      have h := ih rest hrest hbr
      have hr : r < 256 := hb r (by simp)
      have hg : g < 256 := hb g (by simp)
      have hbb : b < 256 := hb b (by simp)
      simp only [calculate_histogram]
      exact ⟨by rw [sum_update_incr _ _ hr, h.1],
             by rw [sum_update_incr _ _ hg, h.2.1],
             by rw [sum_update_incr _ _ hbb, h.2.2]⟩

/-- C8: for every rendered buffer of exactly `preview_width * preview_height
* 4` bytes, the single pass of `calculate_histogram` over the RGBA bytes
(ignoring alpha) produces R, G and B histograms whose 256 bins each sum to
exactly `preview_width * preview_height`. -/
theorem histogram_channel_sums (pw ph : ℕ) (buf : List ℕ)
    (hlen : buf.length = pw * ph * 4) (hb : ∀ x ∈ buf, x < 256) :
    (∑ v ∈ Finset.range 256, (calculate_histogram buf).1 v) = pw * ph ∧
    (∑ v ∈ Finset.range 256, (calculate_histogram buf).2.1 v) = pw * ph ∧
    (∑ v ∈ Finset.range 256, (calculate_histogram buf).2.2 v) = pw * ph :=
  histogram_chunks_sum (pw * ph) buf (by rw [hlen]; ring) hb

/-- Witness for C8 on a concrete 1x2-pixel RGBA buffer. -/
theorem histogram_channel_sums_witness :
    (∑ v ∈ Finset.range 256,
      (calculate_histogram [0, 1, 2, 3, 255, 4, 5, 6]).1 v) = 1 * 2 ∧
    (∑ v ∈ Finset.range 256,
      (calculate_histogram [0, 1, 2, 3, 255, 4, 5, 6]).2.1 v) = 1 * 2 ∧
    (∑ v ∈ Finset.range 256,
      (calculate_histogram [0, 1, 2, 3, 255, 4, 5, 6]).2.2 v) = 1 * 2 :=
  histogram_channel_sums 1 2 [0, 1, 2, 3, 255, 4, 5, 6] (by norm_num)
    (by decide)

end RawEditor
